import Mathlib

/-!
Shallow embedding of the entity-reconciliation and graph-construction
pipeline of scripts/process_data.py (Epstein-files-dashboard).

Python primitives (str.strip, str.lower, str.title, str.split, int(),
float(), round(), re.split on the delimiter class, Counter, dict insertion
order) are modelled explicitly below.  The model is ASCII-faithful: case
mapping and whitespace cover the ASCII range, int()/float() cover optional
surrounding whitespace, an optional sign and decimal digit strings
(float() additionally a fractional part); numeric-literal underscores,
exponents, inf/nan are outside the modelled input space.  CSV rows are
records of optional string fields (a missing column is `none`).
-/

/-- Whitespace characters recognised by Python str.strip and str.split
(ASCII subset). -/
def pyIsSpace (c : Char) : Bool :=
  c = ' ' || c = '\t' || c = '\n' || c = '\r' || c = '\x0b' || c = '\x0c'

/-- Python str.strip on a character list: drop leading and trailing
whitespace. -/
def pyStripL (cs : List Char) : List Char :=
  ((cs.dropWhile pyIsSpace).reverse.dropWhile pyIsSpace).reverse

/-- Python str.strip (whitespace form). -/
def pyStrip (s : String) : String :=
  String.mk (pyStripL s.data)

/-- Python str.lower (ASCII case mapping). -/
def pyLower (s : String) : String :=
  String.mk (s.data.map Char.toLower)

/-- Python str.title on a character list: the first letter of every
maximal run of letters is uppercased, the others lowercased. -/
def pyTitleAux : Bool → List Char → List Char
  | _, [] => []
  | prev, c :: cs =>
    if c.isAlpha then
      (if prev then c.toLower else c.toUpper) :: pyTitleAux true cs
    else
      c :: pyTitleAux false cs

/-- Python str.title (ASCII letters). -/
def pyTitle (s : String) : String :=
  String.mk (pyTitleAux false s.data)

/-- Accumulating word scanner behind pySplitWs; the accumulator holds the
current word reversed. -/
def pyWordsAux (acc : List Char) : List Char → List String
  | [] => if acc = [] then [] else [String.mk acc.reverse]
  | c :: cs =>
    if pyIsSpace c then
      if acc = [] then pyWordsAux [] cs
      else String.mk acc.reverse :: pyWordsAux [] cs
    else pyWordsAux (c :: acc) cs

/-- Python str.split with no argument: split on whitespace runs,
dropping empty pieces. -/
def pySplitWs (s : String) : List String :=
  pyWordsAux [] s.data

/-- Python substring containment, the `in` operator on strings,
over character lists. -/
def containsSub : List Char → List Char → Bool
  | key, pat =>
    pat.isPrefixOf key ||
      match key with
      | [] => false
      | _ :: t => containsSub t pat

/-- Value of a decimal digit string; `none` when empty or containing a
non-digit. -/
def digitsToNat (cs : List Char) : Option Nat :=
  if cs ≠ [] ∧ cs.all Char.isDigit then
    some (cs.foldl (fun a c => a * 10 + (c.toNat - 48)) 0)
  else none

/-- Python int(str): optional surrounding whitespace, optional sign,
decimal digits; `none` models a ValueError. -/
def pyIntOfString (s : String) : Option Int :=
  match pyStripL s.data with
  | [] => none
  | '-' :: rest => (digitsToNat rest).map (fun n => -(n : Int))
  | '+' :: rest => (digitsToNat rest).map (fun n => (n : Int))
  | cs => (digitsToNat cs).map (fun n => (n : Int))

/-- Python float(str) restricted to decimal literals, as an exact
rational: optional surrounding whitespace, optional sign, digits with an
optional fractional part; `none` models a ValueError. -/
def pyFloatOfString (s : String) : Option Rat :=
  match pyStripL s.data with
  | [] => none
  | cs =>
    let signed : Rat × List Char :=
      match cs with
      | '-' :: r => (-1, r)
      | '+' :: r => (1, r)
      | r => (1, r)
    let intPart := signed.2.takeWhile Char.isDigit
    let rest := signed.2.dropWhile Char.isDigit
    match rest with
    | [] =>
      (digitsToNat intPart).map (fun n => signed.1 * (n : Rat))
    | '.' :: fr =>
      if fr.all Char.isDigit ∧ (intPart ≠ [] ∨ fr ≠ []) then
        some (signed.1 *
          (((intPart.foldl (fun a c => a * 10 + (c.toNat - 48)) 0 : Nat) : Rat) +
            ((fr.foldl (fun a c => a * 10 + (c.toNat - 48)) 0 : Nat) : Rat) / (10 ^ fr.length)))
      else none
    | _ => none

/-- Python round() to an integer: nearest integer, ties to even. -/
def pyRound (q : Rat) : Int :=
  let f := q.floor
  let r := q - (f : Rat)
  if r < 1/2 then f
  else if 1/2 < r then f + 1
  else if f % 2 = 0 then f else f + 1

/-- Coercion of an optional raw CSV field through
int(record.get(k, 0) or 0) with the ValueError fallback to 0:
a missing or empty field is 0, a parse failure is 0. -/
def pyParseCount (v : Option String) : Int :=
  match v with
  | none => 0
  | some s => if s = "" then 0 else (pyIntOfString s).getD 0

/-- Value of record.get(k, "") or "" for an optional raw field. -/
def pyGetStr (v : Option String) : String :=
  match v with
  | none => ""
  | some s => s

-- ── Data model ────────────────────────────────────────────────────────────

/-- Image references held by the index; their internal structure is never
inspected by the pipeline, so they are opaque strings here. -/
abbrev Images := List String

/-- The image index: a name-keyed insertion-ordered mapping, modelled as
an association list in iteration order. -/
abbrev ImageIndex := List (String × Images)

/-- Canonical record produced by process_entities. -/
structure Entity where
  name : String
  entity_type : String
  role_description : String
  documents : Int
  flights : Int
  emails : Int
  slug : String
  images : Images
deriving Repr, DecidableEq

/-- Canonical record produced by process_persons_kaggle. -/
structure KPerson where
  name : String
  bio : String
  flights : Int
  documents : Int
  connections : Int
  in_black_book : Bool
  nationality : String
  category : String
  images : Images
deriving Repr, DecidableEq

/-- Record shape built by merge_persons for entity-derived rows
(the full thirteen-key dictionary of lines 221-234 and 248-261). -/
structure MPerson where
  name : String
  entity_type : String
  role_description : String
  flights : Int
  documents : Int
  emails : Int
  connections : Int
  in_black_book : Bool
  nationality : String
  category : String
  slug : String
  images : Images
deriving Repr, DecidableEq

/-- An element of the merged persons list: merge_persons returns
entity-derived dictionaries and kaggle dictionaries appended as-is, so the
output list is heterogeneous. -/
inductive Merged where
  | ent : MPerson → Merged
  | kag : KPerson → Merged
deriving Repr, DecidableEq

def Merged.nameOf : Merged → String
  | .ent m => m.name
  | .kag p => p.name

def Merged.flightsOf : Merged → Int
  | .ent m => m.flights
  | .kag p => p.flights

def Merged.documentsOf : Merged → Int
  | .ent m => m.documents
  | .kag p => p.documents

def Merged.connectionsOf : Merged → Int
  | .ent m => m.connections
  | .kag p => p.connections

/-- Value of p.get("category", p.get("entity_type", "Unknown")) on a
merged row: every shape merge_persons emits carries a category key, so the
chain resolves to that field. -/
def Merged.categoryOf : Merged → String
  | .ent m => m.category
  | .kag p => p.category

def Merged.blackBookOf : Merged → Bool
  | .ent m => m.in_black_book
  | .kag p => p.in_black_book

def Merged.nationalityOf : Merged → String
  | .ent m => m.nationality
  | .kag p => p.nationality

def Merged.imagesOf : Merged → Images
  | .ent m => m.images
  | .kag p => p.images

/-- Network edge, the dictionary built by process_relationships and by the
co-occurrence branch of build_network. -/
structure Edge where
  source : String
  target : String
  type : String
  weight : Int
deriving Repr, DecidableEq

/-- Canonical flight record (process_flights output); build_network reads
only the passengers field. -/
structure Flight where
  date : String := ""
  year : String := ""
  departure : String := ""
  departure_code : String := ""
  arrival : String := ""
  arrival_code : String := ""
  aircraft : String := ""
  pilot : String := ""
  passengers : String := ""
deriving Repr, DecidableEq

-- ── Relationship extraction and connection counting ───────────────────────

/-- Raw relationships.csv row. -/
structure RawRel where
  entity_a : Option String := none
  entity_b : Option String := none
  relationship_type : Option String := none
  strength : Option String := none
deriving Repr, DecidableEq

/-- Strength coercion of process_relationships lines 351-359:
int(v or 1), on ValueError float(v or 1) rounded, on failure 1, where v is
record.get("strength", 1). -/
def parseStrength (v : Option String) : Int :=
  match v with
  | none => 1
  | some s =>
    if s = "" then 1
    else
      match pyIntOfString s with
      | some n => n
      | none =>
        match pyFloatOfString s with
        | some q => pyRound q
        | none => 1

/-- Edge produced from one raw relationships row, when both endpoint names
are non-empty after stripping. -/
def relEdgeOf (r : RawRel) : Option Edge :=
  let a := pyStrip (pyGetStr r.entity_a)
  let b := pyStrip (pyGetStr r.entity_b)
  if a ≠ "" ∧ b ≠ "" then
    some { source := a, target := b,
           type := pyStrip (pyGetStr r.relationship_type),
           weight := parseStrength r.strength }
  else none

/-- Insertion-ordered duplicate-free accumulation, the observable content
of the Python node set. -/
def addName (ns : List String) (n : String) : List String :=
  if n ∈ ns then ns else ns ++ [n]

/-- process_relationships: every row with non-empty entity_a and entity_b
becomes one edge; the node set collects the endpoint names. -/
def process_relationships (records : List RawRel) : List Edge × List String :=
  let links := records.filterMap relEdgeOf
  (links, links.foldl (fun ns l => addName (addName ns l.source) l.target) [])

/-- Pointwise increment of a counter, one Counter[key] += 1 step. -/
def bumpFun (cc : String → Int) (n : String) : String → Int :=
  fun m => if m = n then cc m + 1 else cc m

/-- count_connections_from_relationships: for each edge increment the
counter of its source and of its target by 1; an absent relationships
source yields the empty counter. -/
def count_connections_from_relationships
    (relationships_data : Option (List Edge × List String)) : String → Int :=
  match relationships_data with
  | none => fun _ => 0
  | some (rel_links, _) =>
    rel_links.foldl (fun cc l => bumpFun (bumpFun cc l.source) l.target) (fun _ => 0)

-- ── Lemmas for C1 ─────────────────────────────────────────────────────────

theorem bumpFun_apply (cc : String → Int) (n m : String) :
    bumpFun cc n m = cc m + (if m = n then 1 else 0) := by
  unfold bumpFun
  by_cases h : m = n <;> simp [h]

theorem connFold_apply (links : List Edge) (cc : String → Int) (n : String) :
    (links.foldl (fun cc l => bumpFun (bumpFun cc l.source) l.target) cc) n =
      cc n + ((links.countP (fun l => decide (l.source = n)) : Int) +
              (links.countP (fun l => decide (l.target = n)) : Int)) := by
  induction links generalizing cc with
  | nil => simp
  | cons l rest ih =>
    simp only [List.foldl_cons, List.countP_cons]
    rw [ih]
    rw [bumpFun_apply, bumpFun_apply]
    split_ifs <;> (try simp_all) <;> omega

/-- Example edge list of the claim: (A,B,w=1), (A,C,w=2). -/
def exampleRelData : Option (List Edge × List String) :=
  some ([{ source := "A", target := "B", type := "", weight := 1 },
         { source := "A", target := "C", type := "", weight := 2 }], ["A", "B", "C"])

/-- C1: count_connections maps each name n to the number of edges whose
source is n plus the number of edges whose target is n — edge incidence
counted with multiplicity, each edge contributing 1 to each endpoint — and
on the example edges (A,B,w=1), (A,C,w=2) it yields A:2, B:1, C:1. -/
theorem count_connections_incidence :
    (∀ (links : List Edge) (nodeSet : List String) (n : String),
      count_connections_from_relationships (some (links, nodeSet)) n =
        (links.countP (fun l => decide (l.source = n)) : Int) +
        (links.countP (fun l => decide (l.target = n)) : Int)) ∧
    count_connections_from_relationships exampleRelData "A" = 2 ∧
    count_connections_from_relationships exampleRelData "B" = 1 ∧
    count_connections_from_relationships exampleRelData "C" = 1 := by
  refine ⟨fun links nodeSet n => ?_, by decide, by decide, by decide⟩
  show (links.foldl (fun cc l => bumpFun (bumpFun cc l.source) l.target) (fun _ => 0)) n = _
  rw [connFold_apply]
  simp

-- ── Image Index Lookup ────────────────────────────────────────────────────

/-- Dictionary lookup image_index.get(k) over the insertion-ordered
association list. -/
def idxGet (image_index : ImageIndex) (k : String) : Option Images :=
  (image_index.find? (fun kv => decide (kv.1 = k))).map (fun kv => kv.2)

/-- Fallback condition of process_entities line 103: the name has at least
two tokens, and every token of length above 2 among the first two tokens
is a substring of the candidate key. -/
def fuzzyMatches (name_parts : List String) (key : String) : Bool :=
  decide (2 ≤ name_parts.length) &&
    ((name_parts.take 2).filter (fun p => decide (2 < p.length))).all
      (fun p => containsSub key.data p.data)

/-- Image matching of process_entities lines 97-105: title-case the name,
take the exact index entry when it is non-empty, otherwise the value of
the first key in index iteration order satisfying the fallback condition,
otherwise the empty sequence. -/
def lookupImages (image_index : ImageIndex) (name : String) : Images :=
  let name_title := pyTitle name
  let images := (idxGet image_index name_title).getD []
  if images ≠ [] then images
  else
    match image_index.find? (fun kv => fuzzyMatches (pySplitWs name_title) kv.1) with
    | some kv => kv.2
    | none => []

-- ── Record Normalizer: entities, kaggle persons, documents ────────────────

/-- Raw entities.csv row. -/
structure RawEntity where
  name : Option String := none
  entity_type : Option String := none
  role_description : Option String := none
  document_count : Option String := none
  flight_count : Option String := none
  email_count : Option String := none
  slug : Option String := none
deriving Repr, DecidableEq

/-- One entities.csv row normalised by process_entities; `none` when the
stripped name is empty and the row is discarded. -/
def processEntity (image_index : ImageIndex) (r : RawEntity) : Option Entity :=
  let name := pyStrip (pyGetStr r.name)
  if name = "" then none
  else some
    { name := name
      entity_type := pyStrip (pyGetStr r.entity_type)
      role_description := pyStrip (pyGetStr r.role_description)
      documents := pyParseCount r.document_count
      flights := pyParseCount r.flight_count
      emails := pyParseCount r.email_count
      slug := pyStrip (pyGetStr r.slug)
      images := lookupImages image_index name }

/-- Descending lexicographic (flights, documents) ordering backing the
stable reverse sort of process_entities line 119.  Python list.sort is a
stable sort; List.insertionSort is stable and computes the same
permutation for this total preorder. -/
def entRel (a b : Entity) : Prop :=
  b.flights < a.flights ∨ (b.flights = a.flights ∧ b.documents ≤ a.documents)

instance : DecidableRel entRel := fun a b =>
  inferInstanceAs (Decidable (b.flights < a.flights ∨
    (b.flights = a.flights ∧ b.documents ≤ a.documents)))

instance : IsTotal Entity entRel := ⟨fun a b => by unfold entRel; omega⟩

instance : IsTrans Entity entRel :=
  ⟨fun a b c h1 h2 => by unfold entRel at *; omega⟩

/-- process_entities over the parsed CSV rows. -/
def process_entities (image_index : ImageIndex) (records : List RawEntity) : List Entity :=
  List.insertionSort entRel (records.filterMap (processEntity image_index))

/-- Raw kaggle persons row; field names follow the CSV columns
(Name, Persons of Interest, Flights, Number of flights, ...). -/
structure RawKaggle where
  name : Option String := none
  persons_of_interest : Option String := none
  flights : Option String := none
  number_of_flights : Option String := none
  documents : Option String := none
  number_of_documents : Option String := none
  connections : Option String := none
  bio : Option String := none
  in_black_book : Option String := none
  nationality : Option String := none
  category : Option String := none
deriving Repr, DecidableEq

/-- Value of record.get(k1, "") or record.get(k2, "") or "". -/
def orChainStr (a b : Option String) : String :=
  if pyGetStr a ≠ "" then pyGetStr a else pyGetStr b

/-- Count with a legacy column fallback:
int(record.get(k1, record.get(k2, 0)) or 0), defaulting to 0 on parse
failure.  The fallback column is consulted only when the primary column is
absent entirely. -/
def kaggleCount (primary legacy : Option String) : Int :=
  match primary with
  | some s => pyParseCount (some s)
  | none => pyParseCount legacy

/-- In Black Book flag parse of line 167. -/
def parseInBB (v : Option String) : Bool :=
  let s := pyLower (pyStrip (pyGetStr v))
  s = "yes" || s = "true" || s = "1" || s = "y"

/-- Stripped string defaulting to "Unknown" when empty (lines 168, 182). -/
def strOrUnknown (v : Option String) : String :=
  if pyStrip (pyGetStr v) = "" then "Unknown" else pyStrip (pyGetStr v)

/-- One kaggle row normalised by process_persons_kaggle; image matching
here is exact-key only (line 172). -/
def processKaggle (image_index : ImageIndex) (r : RawKaggle) : Option KPerson :=
  let name := pyStrip (orChainStr r.name r.persons_of_interest)
  if name = "" then none
  else some
    { name := name
      bio := pyStrip (pyGetStr r.bio)
      flights := kaggleCount r.flights r.number_of_flights
      documents := kaggleCount r.documents r.number_of_documents
      connections := pyParseCount r.connections
      in_black_book := parseInBB r.in_black_book
      nationality := strOrUnknown r.nationality
      category := strOrUnknown r.category
      images := (idxGet image_index (pyTitle name)).getD [] }

/-- Descending lexicographic (connections, flights, documents) ordering of
process_persons_kaggle line 186 (stable reverse sort). -/
def kagRel (a b : KPerson) : Prop :=
  b.connections < a.connections ∨
    (b.connections = a.connections ∧
      (b.flights < a.flights ∨ (b.flights = a.flights ∧ b.documents ≤ a.documents)))

instance : DecidableRel kagRel := fun a b =>
  inferInstanceAs (Decidable (b.connections < a.connections ∨
    (b.connections = a.connections ∧
      (b.flights < a.flights ∨ (b.flights = a.flights ∧ b.documents ≤ a.documents)))))

instance : IsTotal KPerson kagRel := ⟨fun a b => by unfold kagRel; omega⟩

instance : IsTrans KPerson kagRel :=
  ⟨fun a b c h1 h2 => by unfold kagRel at *; omega⟩

/-- process_persons_kaggle over the parsed CSV rows. -/
def process_persons_kaggle (image_index : ImageIndex) (records : List RawKaggle) : List KPerson :=
  List.insertionSort kagRel (records.filterMap (processKaggle image_index))

/-- Raw document metadata record (CSV or JSONL; JSONL integer values are
represented by their decimal strings).  The list-valued fields
(tags, power_mentions, agency_involvement, lead_types, key_insights) pass
through parse_list untouched by any verified claim and are omitted. -/
structure RawDoc where
  filename : Option String := none
  filenameAlt : Option String := none
  headline : Option String := none
  title : Option String := none
  importance_score : Option String := none
  reason : Option String := none
deriving Repr, DecidableEq

/-- Canonical document metadata record (scalar fields). -/
structure DocMeta where
  filename : String
  headline : String
  importance_score : Int
  reason : String
deriving Repr, DecidableEq

/-- One document record normalised by process_documents; `none` when both
filename and headline are empty after stripping. -/
def processDoc (r : RawDoc) : Option DocMeta :=
  let filename := pyStrip (orChainStr r.filename r.filenameAlt)
  let headline := pyStrip (orChainStr r.headline r.title)
  if filename = "" ∧ headline = "" then none
  else some
    { filename := filename
      headline := headline
      importance_score := pyParseCount r.importance_score
      reason := pyStrip (pyGetStr r.reason) }

/-- Descending importance ordering of process_documents line 445
(stable reverse sort). -/
def docRel (a b : DocMeta) : Prop :=
  b.importance_score ≤ a.importance_score

instance : DecidableRel docRel := fun a b =>
  inferInstanceAs (Decidable (b.importance_score ≤ a.importance_score))

instance : IsTotal DocMeta docRel := ⟨fun a b => by unfold docRel; omega⟩

instance : IsTrans DocMeta docRel :=
  ⟨fun a b c h1 h2 => by unfold docRel at *; omega⟩

/-- process_documents over the loaded records. -/
def process_documents (records : List RawDoc) : List DocMeta :=
  List.insertionSort docRel (records.filterMap processDoc)

-- ── Entity Merger ─────────────────────────────────────────────────────────

/-- Lookup in the merge dictionary of line 238,
kaggle_map = (dict p.name.lower -> p): a comprehension keeps the last
entry for a repeated key, so the lookup finds the last match. -/
def kaggleLookup (kaggle_data : List KPerson) (key : String) : Option KPerson :=
  kaggle_data.reverse.find? (fun p => decide (pyLower p.name = key))

/-- Entity converted to the canonical person shape when no supplementary
data exists (merge_persons lines 217-235).  The category falls back to the
entity_type value, which is always present (possibly empty). -/
def entityToMerged (connection_counts : String → Int) (e : Entity) : MPerson :=
  { name := e.name
    entity_type := e.entity_type
    role_description := e.role_description
    flights := e.flights
    documents := e.documents
    emails := e.emails
    connections := connection_counts e.name
    in_black_book := false
    nationality := "Unknown"
    category := e.entity_type
    slug := e.slug
    images := e.images }

/-- Merged record for one primary entity (merge_persons lines 242-261).
With no kaggle match, kaggle_match is the empty dictionary and every
kaggle_match.get falls back to its default, so flights, documents and
connections still pass through max with 0. -/
def mergeOne (connection_counts : String → Int) (kaggle_data : List KPerson)
    (e : Entity) : MPerson :=
  match kaggleLookup kaggle_data (pyLower e.name) with
  | some k =>
    { name := e.name
      entity_type := e.entity_type
      role_description := e.role_description
      flights := max e.flights k.flights
      documents := max e.documents k.documents
      emails := e.emails
      connections := max (connection_counts e.name) k.connections
      in_black_book := k.in_black_book
      nationality := k.nationality
      category := k.category
      slug := e.slug
      images := if e.images ≠ [] then e.images else k.images }
  | none =>
    { name := e.name
      entity_type := e.entity_type
      role_description := e.role_description
      flights := max e.flights 0
      documents := max e.documents 0
      emails := e.emails
      connections := max (connection_counts e.name) 0
      in_black_book := false
      nationality := "Unknown"
      category := e.entity_type
      slug := e.slug
      images := if e.images ≠ [] then e.images else [] }

/-- Connections raise of lines 213 and 266:
p.connections = max(p.connections, connection_counts.get(p.name, 0)). -/
def updateConn (connection_counts : String → Int) (p : KPerson) : KPerson :=
  { p with connections := max p.connections (connection_counts p.name) }

/-- Pre-sort merged list of the both-sources branch (lines 237-267):
every primary entity in order, then the kaggle rows whose lowercased name
matches no primary entity, in order. -/
def mergeCore (connection_counts : String → Int)
    (entities_data : List Entity) (kaggle_data : List KPerson) : List Merged :=
  (entities_data.map (fun e => Merged.ent (mergeOne connection_counts kaggle_data e))) ++
    ((kaggle_data.filter
        (fun p => !(entities_data.any (fun e => decide (pyLower e.name = pyLower p.name))))).map
      (fun p => Merged.kag (updateConn connection_counts p)))

/-- Descending lexicographic (flights, documents) ordering over merged
rows (line 269, key (x.get flights, x.get documents) with reverse). -/
def mergeRel (a b : Merged) : Prop :=
  b.flightsOf < a.flightsOf ∨
    (b.flightsOf = a.flightsOf ∧ b.documentsOf ≤ a.documentsOf)

instance : DecidableRel mergeRel := fun a b =>
  inferInstanceAs (Decidable (b.flightsOf < a.flightsOf ∨
    (b.flightsOf = a.flightsOf ∧ b.documentsOf ≤ a.documentsOf)))

instance : IsTotal Merged mergeRel := ⟨fun a b => by unfold mergeRel; omega⟩

instance : IsTrans Merged mergeRel :=
  ⟨fun a b c h1 h2 => by unfold mergeRel at *; omega⟩

/-- merge_persons.  A missing source (None) and an empty list are both
falsy in the Python guards and behave identically, so both are modelled by
the empty list.  The final stable reverse sort of line 269 is
List.insertionSort with the descending key ordering. -/
def merge_persons (entities_data : List Entity) (kaggle_data : List KPerson)
    (connection_counts : String → Int) : List Merged :=
  if entities_data = [] then
    if kaggle_data ≠ [] then
      kaggle_data.map (fun p => Merged.kag (updateConn connection_counts p))
    else []
  else if kaggle_data = [] then
    entities_data.map (fun e => Merged.ent (entityToMerged connection_counts e))
  else
    List.insertionSort mergeRel (mergeCore connection_counts entities_data kaggle_data)

-- ── Network Assembler ─────────────────────────────────────────────────────

/-- A node dictionary value: either the full shape built from a person row
(lines 490-500) or a stub introduced for an edge endpoint
(lines 512-516 and 534-538). -/
inductive NodeVal where
  | person (group : String) (flights documents connections : Int)
      (in_black_book : Bool) (nationality : String) (images : Images)
  | stub (group : String)
deriving Repr, DecidableEq

/-- Node value built from a merged person row. -/
def personNodeVal (p : Merged) : NodeVal :=
  NodeVal.person p.categoryOf p.flightsOf p.documentsOf p.connectionsOf
    p.blackBookOf p.nationalityOf p.imagesOf

/-- Python dict insertion: add the key at the end unless present. -/
def addNodeIfAbsent (n : String) (v : NodeVal)
    (nodes : List (String × NodeVal)) : List (String × NodeVal) :=
  if nodes.any (fun kv => decide (kv.1 = n)) then nodes else nodes ++ [(n, v)]

/-- Delimiter class of the passenger split regex, one of , ; / &. -/
def isDelim (c : Char) : Bool :=
  c = ',' || c = ';' || c = '/' || c = '&'

/-- State machine for re.split over runs of delimiters: the flag records
whether the previous character was a delimiter, so consecutive delimiters
produce a single split. -/
def splitRunsSM (prevDelim : Bool) (acc : List Char) :
    List Char → List (List Char)
  | [] => [acc.reverse]
  | c :: cs =>
    if isDelim c then
      if prevDelim then splitRunsSM true acc cs
      else acc.reverse :: splitRunsSM true [] cs
    else splitRunsSM false (c :: acc) cs

/-- re.split on one or more of the delimiters , ; / &; empty pieces remain
at the string boundaries, as with the Python regex. -/
def splitRuns (cs : List Char) : List (List Char) :=
  splitRunsSM false [] cs

/-- Passenger tokens of one flight (lines 524-527): split the raw string
on delimiter runs, strip each piece, keep pieces longer than 2 characters,
and title-case them. -/
def paxOf (f : Flight) : List String :=
  if f.passengers ≠ "" then
    (splitRuns f.passengers.data).filterMap (fun piece =>
      let ps := pyStripL piece
      if ps ≠ [] ∧ 2 < ps.length then some (pyTitle (String.mk ps)) else none)
  else []

/-- Lexicographic code-point comparison of two character lists, the
ordering Python uses to compare strings. -/
def strLtB : List Char → List Char → Bool
  | [], [] => false
  | [], _ :: _ => true
  | _ :: _, [] => false
  | a :: as, b :: bs =>
    if a.toNat < b.toNat then true
    else if b.toNat < a.toNat then false
    else strLtB as bs

/-- Python tuple(sorted([a, b])) on two strings. -/
def sortPair (a b : String) : String × String :=
  if strLtB b.data a.data then (b, a) else (a, b)

/-- Ordered distinct pairs of one flight's passenger list in enumeration
order: (pax i, pax j) for i < j with unequal members. -/
def flightPairs : List String → List (String × String)
  | [] => []
  | p1 :: rest =>
    (rest.filterMap (fun p2 => if p1 ≠ p2 then some (p1, p2) else none)) ++
      flightPairs rest

/-- All qualifying passenger pair occurrences over the flight list, in
processing order. -/
def cooccPairs (flight_data : List Flight) : List (String × String) :=
  (flight_data.map (fun f => flightPairs (paxOf f))).flatten

/-- One Counter[pair] += 1 step over the insertion-ordered counter. -/
def bumpPair (k : String × String) :
    List ((String × String) × Int) → List ((String × String) × Int)
  | [] => [(k, 1)]
  | (k', c) :: rest =>
    if k' = k then (k', c + 1) :: rest else (k', c) :: bumpPair k rest

/-- The co-occurrence Counter, keys in first-seen order. -/
def cooccCounter (flight_data : List Flight) : List ((String × String) × Int) :=
  (cooccPairs flight_data).foldl (fun c pr => bumpPair (sortPair pr.1 pr.2) c) []

/-- Descending count ordering backing Counter.most_common, which is a
stable reverse sort by count. -/
def countRel (a b : (String × String) × Int) : Prop :=
  b.2 ≤ a.2

instance : DecidableRel countRel := fun a b =>
  inferInstanceAs (Decidable (b.2 ≤ a.2))

instance : IsTotal ((String × String) × Int) countRel :=
  ⟨fun a b => by unfold countRel; omega⟩

instance : IsTrans ((String × String) × Int) countRel :=
  ⟨fun a b c h1 h2 => by unfold countRel at *; omega⟩

/-- Co-occurrence edges (lines 540-541): the top 500 pairs by count, ties
in first-seen order, as edges of type co-passenger. -/
def cooccEdges (flight_data : List Flight) : List Edge :=
  ((List.insertionSort countRel (cooccCounter flight_data)).take 500).map
    (fun it => { source := it.1.1, target := it.1.2,
                 type := "co-passenger", weight := it.2 })

/-- The network dictionary: nodes in insertion order and the link list. -/
structure Network where
  nodes : List (String × NodeVal)
  links : List Edge
deriving Repr, DecidableEq

/-- build_network.  relationships_data is the optional pair returned by
process_relationships; a present pair is truthy in Python even when its
edge list is empty.  flight_data is truthy only when present and
non-empty. -/
def build_network (persons_data : List Merged)
    (relationships_data : Option (List Edge × List String))
    (flight_data : Option (List Flight)) : Network :=
  let nodes0 := (persons_data.take 300).foldl
    (fun ns p => addNodeIfAbsent p.nameOf (personNodeVal p) ns) []
  match relationships_data with
  | some (rel_links, _) =>
    let nodes1 := (rel_links.take 1000).foldl
      (fun ns l => addNodeIfAbsent l.target (NodeVal.stub "Relationship")
        (addNodeIfAbsent l.source (NodeVal.stub "Relationship") ns)) nodes0
    { nodes := nodes1, links := rel_links.take 1000 }
  | none =>
    match flight_data with
    | some fl =>
      if fl ≠ [] then
        let nodes1 := (cooccPairs fl).foldl
          (fun ns pr => addNodeIfAbsent pr.2 (NodeVal.stub "Flight Passenger")
            (addNodeIfAbsent pr.1 (NodeVal.stub "Flight Passenger") ns)) nodes0
        { nodes := nodes1, links := cooccEdges fl }
      else { nodes := nodes0, links := [] }
    | none => { nodes := nodes0, links := [] }

-- ── C4: edge-source exclusivity of build_network ──────────────────────────

/-- Flight used by the C4 counterexample. -/
def c4Flight : Flight := { passengers := "Jane Doe, John Roe" }

/-- C4 counterexample: with a present relationships result carrying zero
edges — so no relationship edges are available — and flight data present,
build_network derives no co-occurrence edges (its links are empty),
although the co-occurrence edges derivable from the same flight data are
non-empty.  This refutes the claim that co-occurrence derivation happens
whenever no relationship edges are available but flight data is. -/
theorem cooccurrence_skipped_for_empty_edgelist :
    (build_network [] (some ([], [])) (some [c4Flight])).links = [] ∧
    cooccEdges [c4Flight] =
      [{ source := "Jane Doe", target := "John Roe",
         type := "co-passenger", weight := 1 }] := by
  constructor
  · rfl
  · decide

/-- C4 (amended): co-occurrence derivation activates exactly when the
relationships source is entirely absent; whenever a relationships result
is present — even with an empty edge list — the links are exactly the
first 1000 relationship edges, and when it is absent the links are exactly
the derived co-occurrence edges (empty without flight data), so the two
edge kinds never both appear in one run. -/
theorem network_edge_source_exclusivity :
    ∀ (persons : List Merged) (relLinks : List Edge) (nodeSet : List String)
      (fl : Option (List Flight)) (flightList : List Flight),
      (build_network persons (some (relLinks, nodeSet)) fl).links = relLinks.take 1000 ∧
      (build_network persons none (some flightList)).links = cooccEdges flightList ∧
      (build_network persons none none).links = [] := by
  intro persons relLinks nodeSet fl flightList
  refine ⟨rfl, ?_, rfl⟩
  unfold build_network
  by_cases h : flightList = []
  · subst h
    simp [cooccEdges, cooccCounter, cooccPairs]
  · simp [h]

-- ── C8: relationship weight parsing ───────────────────────────────────────

/-- Relationship row with strength "0", used by the C8 counterexample. -/
def zeroStrengthRow : RawRel :=
  { entity_a := some "A", entity_b := some "B",
    relationship_type := some "knows", strength := some "0" }

/-- C8 counterexample: the integer-parsable strength "0" is taken as is,
so the produced edge's weight is 0, refuting the claim that every produced
weight is at least 1. -/
theorem relationship_weight_zero :
    (process_relationships [zeroStrengthRow]).1 =
      [{ source := "A", target := "B", type := "knows", weight := 0 }] ∧
    ¬ (1 ≤ (0 : Int)) := by
  constructor
  · decide
  · decide

/-- C8 (amended): each produced edge's weight follows the parse chain: an
integer-parsable strength is taken as is (sign included), otherwise a
float-parsable strength is rounded to the nearest integer (ties to even),
and a strength that parses as neither — or is missing or empty — defaults
to 1.  The weight is therefore an integer, but not necessarily at least
1. -/
theorem relationship_weight_parse_chain :
    ∀ (records : List RawRel),
      (process_relationships records).1 = records.filterMap relEdgeOf ∧
      (∀ s n, pyIntOfString s = some n → parseStrength (some s) = n) ∧
      (∀ s q, pyIntOfString s = none → pyFloatOfString s = some q →
        parseStrength (some s) = pyRound q) ∧
      (∀ s, pyIntOfString s = none → pyFloatOfString s = none →
        parseStrength (some s) = 1) ∧
      parseStrength none = 1 := by
  intro records
  refine ⟨rfl, ?_, ?_, ?_, rfl⟩
  · intro s n h
    by_cases hs : s = ""
    · subst hs
      rw [show pyIntOfString "" = none from rfl] at h
      exact Option.noConfusion h
    · simp [parseStrength, hs, h]
  · intro s q hi hf
    by_cases hs : s = ""
    · subst hs
      rw [show pyFloatOfString "" = none from rfl] at hf
      exact Option.noConfusion hf
    · simp [parseStrength, hs, hi, hf]
  · intro s hi hf
    by_cases hs : s = ""
    · subst hs
      rfl
    · simp [parseStrength, hs, hi, hf]

/-- Witness for the C8 theorem at concrete strengths. -/
theorem relationship_weight_parse_chain_witness :
    parseStrength (some "7") = 7 ∧
    parseStrength (some "abc") = 1 ∧
    parseStrength none = 1 :=
  ⟨(relationship_weight_parse_chain []).2.1 "7" 7 (by decide),
   (relationship_weight_parse_chain []).2.2.2.1 "abc" (by decide) (by decide),
   (relationship_weight_parse_chain []).2.2.2.2⟩

-- ── C7: count-field coercion ──────────────────────────────────────────────

/-- Entity row with a negative document count, used by the C7
counterexample. -/
def negCountRow : RawEntity := { name := some "A", document_count := some "-5" }

/-- C7 counterexample: int() parses a negative string successfully, so the
produced record carries documents = -5, refuting the claim that produced
count fields are never negative. -/
theorem entity_negative_count :
    (processEntity [] negCountRow).map Entity.documents = some (-5) ∧
    ¬ (0 ≤ (-5 : Int)) := by
  constructor
  · decide
  · decide

/-- C7 (amended): every count field of a produced record equals the
documented coercion of its raw field — 0 when the field is missing or
empty, 0 on parse failure, the parsed integer otherwise — so the field is
never null and is non-negative whenever every successful parse of the raw
field yields a non-negative integer (but a negative raw value does
produce a negative count). -/
theorem count_fields_parse_chain :
    ∀ (idx : ImageIndex) (r : RawEntity) (e : Entity) (rk : RawKaggle) (k : KPerson)
      (rd : RawDoc) (d : DocMeta),
      (processEntity idx r = some e →
        e.documents = pyParseCount r.document_count ∧
        e.flights = pyParseCount r.flight_count ∧
        e.emails = pyParseCount r.email_count) ∧
      (processKaggle idx rk = some k →
        k.flights = kaggleCount rk.flights rk.number_of_flights ∧
        k.documents = kaggleCount rk.documents rk.number_of_documents ∧
        k.connections = pyParseCount rk.connections) ∧
      (processDoc rd = some d →
        d.importance_score = pyParseCount rd.importance_score) ∧
      (∀ s, pyIntOfString s = none → pyParseCount (some s) = 0) ∧
      pyParseCount none = 0 ∧
      (∀ v : Option String,
        (∀ s n, v = some s → pyIntOfString s = some n → 0 ≤ n) →
        0 ≤ pyParseCount v) := by
  intro idx r e rk k rd d
  refine ⟨?_, ?_, ?_, ?_, rfl, ?_⟩
  · intro h
    by_cases hn : pyStrip (pyGetStr r.name) = ""
    · simp [processEntity, hn] at h
    · simp only [processEntity, hn, if_neg, ite_false, reduceIte,
        Option.some.injEq] at h
      subst h
      exact ⟨rfl, rfl, rfl⟩
  · intro h
    by_cases hn : pyStrip (orChainStr rk.name rk.persons_of_interest) = ""
    · simp [processKaggle, hn] at h
    · simp only [processKaggle, hn, if_neg, ite_false, reduceIte,
        Option.some.injEq] at h
      subst h
      exact ⟨rfl, rfl, rfl⟩
  · intro h
    by_cases hn : pyStrip (orChainStr rd.filename rd.filenameAlt) = "" ∧
        pyStrip (orChainStr rd.headline rd.title) = ""
    · simp [processDoc, hn] at h
    · simp only [processDoc, hn, if_neg, ite_false, reduceIte,
        Option.some.injEq] at h
      subst h
      rfl
  · intro s hi
    by_cases hs : s = ""
    · subst hs; rfl
    · simp [pyParseCount, hs, hi]
  · intro v hv
    match v with
    | none => exact le_refl 0
    | some s =>
      by_cases hs : s = ""
      · subst hs; exact le_refl 0
      · cases hi : pyIntOfString s with
        | none => simp [pyParseCount, hs, hi]
        | some n =>
          simp only [pyParseCount, hs, hi, if_neg, ite_false, reduceIte,
            Option.getD_some]
          exact hv s n rfl hi

/-- Raw entity row of the C7 witness. -/
def wEntRow : RawEntity :=
  { name := some "A", document_count := some "7", flight_count := some "1" }

/-- Canonical record produced from the C7 witness row. -/
def wEnt : Entity :=
  { name := "A", entity_type := "", role_description := "", documents := 7,
    flights := 1, emails := 0, slug := "", images := [] }

/-- Dummy kaggle person for instantiating the C7 theorem. -/
def wKag : KPerson :=
  { name := "K", bio := "", flights := 0, documents := 0, connections := 0,
    in_black_book := false, nationality := "Unknown", category := "Unknown",
    images := [] }

/-- Dummy document record for instantiating the C7 theorem. -/
def wDoc : DocMeta :=
  { filename := "", headline := "", importance_score := 0, reason := "" }

/-- Witness for the C7 theorem at a concrete entity row and count. -/
theorem count_fields_parse_chain_witness :
    (wEnt.documents = pyParseCount wEntRow.document_count ∧
     wEnt.flights = pyParseCount wEntRow.flight_count ∧
     wEnt.emails = pyParseCount wEntRow.email_count) ∧
    0 ≤ pyParseCount (some "12") := by
  constructor
  · exact (count_fields_parse_chain [] wEntRow wEnt {} wKag {} wDoc).1 (by decide)
  · refine (count_fields_parse_chain [] wEntRow wEnt {} wKag {} wDoc).2.2.2.2.2
      (some "12") ?_
    intro s n hs hn
    have hs' : s = "12" := (Option.some.inj hs).symm
    subst hs'
    rw [show pyIntOfString "12" = some 12 from by decide] at hn
    have h12 := Option.some.inj hn
    omega

-- ── C9: image lookup ──────────────────────────────────────────────────────

/-- Image index of the C9 counterexample: the exact key Jane Doe is
present with an empty image list, and the key Janet Doerty both precedes
it in iteration order and satisfies the fallback token condition. -/
def c9Index : ImageIndex := [("Janet Doerty", ["img1"]), ("Jane Doe", [])]

/-- C9 counterexample: the name Jane Doe has an exact index entry (the
empty list), yet the lookup returns the images of the fuzzily-matched key
Janet Doerty: an exact match whose entry is empty falls through to the
fallback, refuting the claim that an exact key match returns the index
entry. -/
theorem exact_match_empty_falls_through :
    idxGet c9Index (pyTitle "Jane Doe") = some [] ∧
    lookupImages c9Index "Jane Doe" = ["img1"] ∧
    (["img1"] : Images) ≠ [] := by
  refine ⟨by decide, by decide, by decide⟩

/-- C9 (amended): lookup canonicalizes the name to title case; an exact
index entry is returned only when it is non-empty; otherwise (including
when the exact entry exists but is empty) the fallback scans the index in
iteration order for the first key such that the name has at least two
tokens and every token of length above 2 among the first two tokens is a
substring of the key, returning its images, and returns the empty
sequence when no key qualifies — in particular whenever the canonical
name has fewer than two tokens. -/
theorem image_lookup_behaviour :
    ∀ (idx : ImageIndex) (name : String),
      (∀ l, idxGet idx (pyTitle name) = some l → l ≠ [] →
        lookupImages idx name = l) ∧
      ((idxGet idx (pyTitle name)).getD [] = [] →
        lookupImages idx name =
          (match idx.find? (fun kv => fuzzyMatches (pySplitWs (pyTitle name)) kv.1) with
           | some kv => kv.2
           | none => [])) ∧
      ((idxGet idx (pyTitle name)).getD [] = [] →
        (pySplitWs (pyTitle name)).length < 2 →
        lookupImages idx name = []) := by
  intro idx name
  refine ⟨?_, ?_, ?_⟩
  · intro l hl hne
    simp only [lookupImages, hl, Option.getD_some]
    simp [hne]
  · intro h0
    simp only [lookupImages, h0]
    simp
  · intro h0 hlen
    have hf : idx.find? (fun kv => fuzzyMatches (pySplitWs (pyTitle name)) kv.1) = none := by
      apply List.find?_eq_none.mpr
      intro kv hkv
      simp only [fuzzyMatches, Bool.and_eq_true, decide_eq_true_eq]
      intro hcontra
      omega
    simp only [lookupImages, h0, hf]
    simp

/-- Image index of the C9 witness. -/
def wIdx : ImageIndex := [("Jane Doe", ["x"])]

/-- Witness for the C9 theorem: an exact non-empty entry is returned. -/
theorem image_lookup_behaviour_witness :
    lookupImages wIdx "jane doe" = ["x"] :=
  (image_lookup_behaviour wIdx "jane doe").1 ["x"] (by decide) (by decide)

-- ── Entity Merger lemmas ──────────────────────────────────────────────────

theorem mergeOne_name (cc : String → Int) (S : List KPerson) (e : Entity) :
    (mergeOne cc S e).name = e.name := by
  rcases h : kaggleLookup S (pyLower e.name) with _ | k <;> simp [mergeOne, h]

theorem mergeOne_flights_ge (cc : String → Int) (S : List KPerson) (e : Entity) :
    e.flights ≤ (mergeOne cc S e).flights := by
  rcases h : kaggleLookup S (pyLower e.name) with _ | k <;>
    simp [mergeOne, h, le_max_left]

theorem mergeOne_documents_ge (cc : String → Int) (S : List KPerson) (e : Entity) :
    e.documents ≤ (mergeOne cc S e).documents := by
  rcases h : kaggleLookup S (pyLower e.name) with _ | k <;>
    simp [mergeOne, h, le_max_left]

theorem kaggleLookup_spec (S : List KPerson) (key : String) (k : KPerson)
    (h : kaggleLookup S key = some k) : k ∈ S ∧ pyLower k.name = key := by
  unfold kaggleLookup at h
  refine ⟨List.mem_reverse.mp (List.mem_of_find?_eq_some h), ?_⟩
  have := List.find?_some h
  simpa using this

theorem kaggleLookup_hit (S : List KPerson) (key : String) (p : KPerson)
    (hp : p ∈ S) (hlow : pyLower p.name = key) :
    ∃ k, kaggleLookup S key = some k := by
  have h1 : (S.reverse.find? (fun q => decide (pyLower q.name = key))).isSome :=
    List.find?_isSome.mpr ⟨p, List.mem_reverse.mpr hp, by simpa using hlow⟩
  rcases Option.isSome_iff_exists.mp h1 with ⟨k, hk⟩
  exact ⟨k, hk⟩

/-- The no-primary-match filter of the kaggle-only append loop, as a
proposition. -/
theorem mem_filter_noMatch (P : List Entity) (S : List KPerson) (p : KPerson) :
    p ∈ S.filter
        (fun p => !(P.any (fun e => decide (pyLower e.name = pyLower p.name)))) ↔
      p ∈ S ∧ ∀ e ∈ P, pyLower e.name ≠ pyLower p.name := by
  simp [List.mem_filter]

theorem mergeCore_map_lower (cc : String → Int) (P : List Entity) (S : List KPerson) :
    (mergeCore cc P S).map (fun m => pyLower m.nameOf) =
      P.map (fun e => pyLower e.name) ++
        (S.filter
          (fun p => !(P.any (fun e => decide (pyLower e.name = pyLower p.name))))).map
          (fun p => pyLower p.name) := by
  have h1 : (P.map (fun e => Merged.ent (mergeOne cc S e))).map
      (fun m => pyLower m.nameOf) = P.map (fun e => pyLower e.name) := by
    rw [List.map_map]
    apply List.map_congr_left
    intro e _
    simp [Function.comp, Merged.nameOf, mergeOne_name]
  have h2 : ∀ (T : List KPerson), (T.map (fun p => Merged.kag (updateConn cc p))).map
      (fun m => pyLower m.nameOf) = T.map (fun p => pyLower p.name) := by
    intro T
    rw [List.map_map]
    apply List.map_congr_left
    intro p _
    simp [Function.comp, Merged.nameOf, updateConn]
  unfold mergeCore
  rw [List.map_append, h1, h2]

/-- C2 counterexample row. -/
def kDupA : KPerson :=
  { name := "A", bio := "", flights := 0, documents := 0, connections := 0,
    in_black_book := false, nationality := "Unknown", category := "Unknown",
    images := [] }

/-- C2 counterexample: a supplementary list containing the same name twice
is returned as-is when the primary list is empty, so the merged output
repeats the name and the claimed no-duplicates property fails. -/
theorem merged_names_duplicate :
    ¬ ((∀ n, n ∈ (merge_persons [] [kDupA, kDupA] (fun _ => 0)).map
            (fun m => pyLower m.nameOf) ↔
          (n ∈ ([] : List Entity).map (fun e => pyLower e.name) ∨
            n ∈ [kDupA, kDupA].map (fun p => pyLower p.name))) ∧
        ((merge_persons [] [kDupA, kDupA] (fun _ => 0)).map
          (fun m => pyLower m.nameOf)).Nodup) :=
  fun h => absurd h.2 (by decide)

/-- C2 (amended): provided the primary and the supplementary lists each
carry pairwise-distinct lowercased names, the merged output's lowercased
name set is exactly the union of the two sources' lowercased name sets and
contains no duplicates. -/
theorem merged_names_union :
    ∀ (P : List Entity) (S : List KPerson) (cc : String → Int),
      (P.map (fun e => pyLower e.name)).Nodup →
      (S.map (fun p => pyLower p.name)).Nodup →
      (∀ n, n ∈ (merge_persons P S cc).map (fun m => pyLower m.nameOf) ↔
        (n ∈ P.map (fun e => pyLower e.name) ∨
          n ∈ S.map (fun p => pyLower p.name))) ∧
      ((merge_persons P S cc).map (fun m => pyLower m.nameOf)).Nodup := by
  intro P S cc hP hS
  by_cases hPe : P = []
  · subst hPe
    by_cases hSe : S = []
    · subst hSe
      simp [merge_persons]
    · simp only [merge_persons, if_pos rfl, if_pos hSe, List.map_map]
      constructor
      · intro n
        simp [Function.comp, Merged.nameOf, updateConn]
      · simpa [Function.comp, Merged.nameOf, updateConn] using hS
  · by_cases hSe : S = []
    · subst hSe
      simp only [merge_persons, if_neg hPe, if_pos rfl, List.map_map]
      constructor
      · intro n
        simp [Function.comp, Merged.nameOf, entityToMerged]
      · simpa [Function.comp, Merged.nameOf, entityToMerged] using hP
    · simp only [merge_persons, if_neg hPe, if_neg hSe]
      have hperm :
          List.Perm
            ((List.insertionSort mergeRel (mergeCore cc P S)).map
              (fun m => pyLower m.nameOf))
            ((mergeCore cc P S).map (fun m => pyLower m.nameOf)) :=
        (List.perm_insertionSort mergeRel (mergeCore cc P S)).map _
      constructor
      · intro n
        rw [hperm.mem_iff, mergeCore_map_lower, List.mem_append]
        constructor
        · rintro (hl | hr)
          · exact Or.inl hl
          · rcases List.mem_map.mp hr with ⟨p, hpF, hpn⟩
            exact Or.inr (List.mem_map.mpr
              ⟨p, ((mem_filter_noMatch P S p).mp hpF).1, hpn⟩)
        · rintro (hl | hr)
          · exact Or.inl hl
          · rcases List.mem_map.mp hr with ⟨p, hpS, hpn⟩
            by_cases hin : n ∈ P.map (fun e => pyLower e.name)
            · exact Or.inl hin
            · refine Or.inr (List.mem_map.mpr ⟨p, ?_, hpn⟩)
              refine (mem_filter_noMatch P S p).mpr ⟨hpS, ?_⟩
              intro e he heq
              exact hin (List.mem_map.mpr ⟨e, he, by rw [heq, hpn]⟩)
      · rw [hperm.nodup_iff, mergeCore_map_lower, List.nodup_append]
        refine ⟨hP, ?_, ?_⟩
        · exact List.Nodup.sublist
            (List.Sublist.map _ (List.filter_sublist S)) hS
        · intro n hnP hnF
          rcases List.mem_map.mp hnF with ⟨p, hpF, hpn⟩
          rcases List.mem_map.mp hnP with ⟨e, he, hen⟩
          exact ((mem_filter_noMatch P S p).mp hpF).2 e he (by rw [hen, hpn])

/-- Concrete sources of the merge witnesses. -/
def wEnt2 : Entity :=
  { name := "Jane Doe", entity_type := "person", role_description := "",
    documents := 1, flights := 2, emails := 0, slug := "jane", images := [] }

/-- Concrete supplementary row of the merge witnesses. -/
def wKag2 : KPerson :=
  { name := "jane doe", bio := "", flights := 5, documents := 0,
    connections := 3, in_black_book := true, nationality := "US",
    category := "Associate", images := ["k"] }

/-- Witness for the C2 theorem at concrete one-row sources. -/
theorem merged_names_union_witness :
    ("jane doe" ∈ (merge_persons [wEnt2] [wKag2] (fun _ => 0)).map
        (fun m => pyLower m.nameOf) ↔
      ("jane doe" ∈ [wEnt2].map (fun e => pyLower e.name) ∨
        "jane doe" ∈ [wKag2].map (fun p => pyLower p.name))) ∧
    ((merge_persons [wEnt2] [wKag2] (fun _ => 0)).map
      (fun m => pyLower m.nameOf)).Nodup :=
  ⟨(merged_names_union [wEnt2] [wKag2] (fun _ => 0) (by decide) (by decide)).1
      "jane doe",
   (merged_names_union [wEnt2] [wKag2] (fun _ => 0) (by decide) (by decide)).2⟩

-- ── C3: monotonicity of flights/documents under merge ─────────────────────

/-- C3 counterexample supplementary row with flights 5. -/
def kA5 : KPerson :=
  { name := "A", bio := "", flights := 5, documents := 0, connections := 0,
    in_black_book := false, nationality := "Unknown", category := "Unknown",
    images := [] }

/-- C3 counterexample supplementary row with the same name and flights 0. -/
def kA0 : KPerson := { kA5 with flights := 0 }

/-- C3 counterexample: with an empty primary list the supplementary rows
are returned as-is, so a duplicated name keeps both rows and the second
row's flights (0) is smaller than the first pre-merge row's flights (5)
under the same case-insensitive name, refuting the claim for arbitrary
inputs. -/
theorem merged_counts_not_monotone :
    ¬ (∀ m ∈ merge_persons [] [kA5, kA0] (fun _ => 0),
        (∀ e ∈ ([] : List Entity), pyLower e.name = pyLower m.nameOf →
          e.flights ≤ m.flightsOf ∧ e.documents ≤ m.documentsOf) ∧
        (∀ p ∈ [kA5, kA0], pyLower p.name = pyLower m.nameOf →
          p.flights ≤ m.flightsOf ∧ p.documents ≤ m.documentsOf)) := by
  intro h
  have hmem : Merged.kag (updateConn (fun _ => 0) kA0) ∈
      merge_persons [] [kA5, kA0] (fun _ => 0) := by decide
  have := (h _ hmem).2 kA5 (by decide) (by decide)
  exact absurd this.1 (by decide)

/-- C3 (amended): provided the primary and supplementary lists each carry
pairwise-distinct lowercased names, every record of the merged output has
flights and documents at least as large as those of every pre-merge record
of either source bearing the same case-insensitive name. -/
theorem merged_counts_monotone :
    ∀ (P : List Entity) (S : List KPerson) (cc : String → Int),
      (P.map (fun e => pyLower e.name)).Nodup →
      (S.map (fun p => pyLower p.name)).Nodup →
      ∀ m ∈ merge_persons P S cc,
        (∀ e ∈ P, pyLower e.name = pyLower m.nameOf →
          e.flights ≤ m.flightsOf ∧ e.documents ≤ m.documentsOf) ∧
        (∀ p ∈ S, pyLower p.name = pyLower m.nameOf →
          p.flights ≤ m.flightsOf ∧ p.documents ≤ m.documentsOf) := by
  intro P S cc hP hS m hm
  by_cases hPe : P = []
  · subst hPe
    by_cases hSe : S = []
    · subst hSe
      simp [merge_persons] at hm
    · simp only [merge_persons, if_pos rfl, if_pos hSe] at hm
      rcases List.mem_map.mp hm with ⟨p0, hp0, rfl⟩
      constructor
      · intro e he _
        simp at he
      · intro p hp hlow
        have hpn : pyLower p.name = pyLower p0.name := by
          simpa [Merged.nameOf, updateConn] using hlow
        have heq : p = p0 := List.inj_on_of_nodup_map hS hp hp0 hpn
        subst heq
        constructor <;> simp [Merged.flightsOf, Merged.documentsOf, updateConn]
  · by_cases hSe : S = []
    · subst hSe
      simp only [merge_persons, if_neg hPe, if_pos rfl] at hm
      rcases List.mem_map.mp hm with ⟨e0, he0, rfl⟩
      constructor
      · intro e he hlow
        have hen : pyLower e.name = pyLower e0.name := by
          simpa [Merged.nameOf, entityToMerged] using hlow
        have heq : e = e0 := List.inj_on_of_nodup_map hP he he0 hen
        subst heq
        constructor <;> simp [Merged.flightsOf, Merged.documentsOf, entityToMerged]
      · intro p hp _
        simp at hp
    · simp only [merge_persons, if_neg hPe, if_neg hSe] at hm
      rw [List.mem_insertionSort] at hm
      unfold mergeCore at hm
      rcases List.mem_append.mp hm with hA | hB
      · rcases List.mem_map.mp hA with ⟨e0, he0, rfl⟩
        constructor
        · intro e he hlow
          have hen : pyLower e.name = pyLower e0.name := by
            simpa [Merged.nameOf, mergeOne_name] using hlow
          have heq : e = e0 := List.inj_on_of_nodup_map hP he he0 hen
          rw [heq]
          exact ⟨by simpa [Merged.flightsOf] using mergeOne_flights_ge cc S e0,
                 by simpa [Merged.documentsOf] using mergeOne_documents_ge cc S e0⟩
        · intro p hp hlow
          have hpn : pyLower p.name = pyLower e0.name := by
            simpa [Merged.nameOf, mergeOne_name] using hlow
          rcases kaggleLookup_hit S (pyLower e0.name) p hp hpn with ⟨k, hk⟩
          have hks := kaggleLookup_spec S (pyLower e0.name) k hk
          have hpk : p = k :=
            List.inj_on_of_nodup_map hS hp hks.1 (hpn.trans hks.2.symm)
          subst hpk
          constructor
          · simp [Merged.flightsOf, mergeOne, hk, le_max_right]
          · simp [Merged.documentsOf, mergeOne, hk, le_max_right]
      · rcases List.mem_map.mp hB with ⟨p0, hp0F, rfl⟩
        have hp0 := (mem_filter_noMatch P S p0).mp hp0F
        constructor
        · intro e he hlow
          exact absurd (by simpa [Merged.nameOf, updateConn] using hlow)
            (hp0.2 e he)
        · intro p hp hlow
          have hpn : pyLower p.name = pyLower p0.name := by
            simpa [Merged.nameOf, updateConn] using hlow
          have heq : p = p0 := List.inj_on_of_nodup_map hS hp hp0.1 hpn
          subst heq
          constructor <;> simp [Merged.flightsOf, Merged.documentsOf, updateConn]

/-- Witness for the C3 theorem at concrete one-row sources. -/
theorem merged_counts_monotone_witness :
    wEnt2.flights ≤
      (Merged.ent (mergeOne (fun _ => 0) [wKag2] wEnt2)).flightsOf ∧
    wKag2.flights ≤
      (Merged.ent (mergeOne (fun _ => 0) [wKag2] wEnt2)).flightsOf := by
  have hmem : Merged.ent (mergeOne (fun _ => 0) [wKag2] wEnt2) ∈
      merge_persons [wEnt2] [wKag2] (fun _ => 0) := by decide
  have base := merged_counts_monotone [wEnt2] [wKag2] (fun _ => 0)
    (by decide) (by decide) _ hmem
  exact ⟨(base.1 wEnt2 (by decide) (by decide)).1,
         (base.2 wKag2 (by decide) (by decide)).1⟩

-- ── C6: ordering of the merged list ───────────────────────────────────────

/-- C6 counterexample supplementary row: high connections, no flights. -/
def kLow : KPerson :=
  { name := "B1", bio := "", flights := 0, documents := 0, connections := 5,
    in_black_book := false, nationality := "Unknown", category := "Unknown",
    images := [] }

/-- C6 counterexample supplementary row: no connections, many flights. -/
def kHigh : KPerson :=
  { name := "B2", bio := "", flights := 9, documents := 0, connections := 0,
    in_black_book := false, nationality := "Unknown", category := "Unknown",
    images := [] }

/-- C6 counterexample: when the primary source is empty, merge_persons
returns the supplementary list in its upstream order (sorted by
connections first), which here puts flights 0 before flights 9 — the
merged list is not ordered descending by (flights, documents). -/
theorem merge_not_sorted_when_primary_empty :
    ¬ ((merge_persons [] [kLow, kHigh] (fun _ => 0)).Pairwise mergeRel) := by
  decide

/-- C6 (amended): when both sources are non-empty, the merged list is
ordered descending by the composite key (flights, documents) with flights
dominant, and the sort is stable: for every key value, the merged records
carrying that key appear exactly as in the pre-sort insertion order
(primary rows in order, then unmatched supplementary rows in order).  When
the primary source is empty the supplementary order is returned
unchanged. -/
theorem merge_sorted_stable :
    ∀ (P : List Entity) (S : List KPerson) (cc : String → Int),
      P ≠ [] → S ≠ [] →
      ((merge_persons P S cc).Sorted mergeRel) ∧
      (∀ f d, (merge_persons P S cc).filter
          (fun m => decide (m.flightsOf = f ∧ m.documentsOf = d)) =
        (mergeCore cc P S).filter
          (fun m => decide (m.flightsOf = f ∧ m.documentsOf = d))) := by
  intro P S cc hPe hSe
  have hmp : merge_persons P S cc =
      List.insertionSort mergeRel (mergeCore cc P S) := by
    simp [merge_persons, hPe, hSe]
  constructor
  · rw [hmp]
    exact List.sorted_insertionSort mergeRel _
  · intro f d
    rw [hmp]
    have hself : ((mergeCore cc P S).filter
          (fun m => decide (m.flightsOf = f ∧ m.documentsOf = d))).filter
          (fun m => decide (m.flightsOf = f ∧ m.documentsOf = d)) =
        (mergeCore cc P S).filter
          (fun m => decide (m.flightsOf = f ∧ m.documentsOf = d)) :=
      List.filter_eq_self.mpr (fun a ha => (List.mem_filter.mp ha).2)
    have hsub : List.Sublist
        ((mergeCore cc P S).filter
          (fun m => decide (m.flightsOf = f ∧ m.documentsOf = d)))
        (List.insertionSort mergeRel (mergeCore cc P S)) := by
      apply List.sublist_insertionSort
      · apply List.pairwise_of_forall_mem_list
        intro a ha b hb
        have hak := (List.mem_filter.mp ha).2
        have hbk := (List.mem_filter.mp hb).2
        simp only [decide_eq_true_eq] at hak hbk
        unfold mergeRel
        omega
      · exact List.filter_sublist _
    have hsub2 : List.Sublist
        ((mergeCore cc P S).filter
          (fun m => decide (m.flightsOf = f ∧ m.documentsOf = d)))
        ((List.insertionSort mergeRel (mergeCore cc P S)).filter
          (fun m => decide (m.flightsOf = f ∧ m.documentsOf = d))) := by
      have := List.Sublist.filter
        (fun m => decide (m.flightsOf = f ∧ m.documentsOf = d)) hsub
      rwa [hself] at this
    have hperm : List.Perm
        ((List.insertionSort mergeRel (mergeCore cc P S)).filter
          (fun m => decide (m.flightsOf = f ∧ m.documentsOf = d)))
        ((mergeCore cc P S).filter
          (fun m => decide (m.flightsOf = f ∧ m.documentsOf = d))) :=
      (List.perm_insertionSort mergeRel (mergeCore cc P S)).filter _
    exact (List.Sublist.eq_of_length hsub2 hperm.length_eq.symm).symm

/-- Witness for the C6 theorem at concrete one-row sources. -/
theorem merge_sorted_stable_witness :
    ((merge_persons [wEnt2] [wKag2] (fun _ => 0)).Sorted mergeRel) ∧
    (merge_persons [wEnt2] [wKag2] (fun _ => 0)).filter
        (fun m => decide (m.flightsOf = 5 ∧ m.documentsOf = 1)) =
      (mergeCore (fun _ => 0) [wEnt2] [wKag2]).filter
        (fun m => decide (m.flightsOf = 5 ∧ m.documentsOf = 1)) :=
  ⟨(merge_sorted_stable [wEnt2] [wKag2] (fun _ => 0) (by decide) (by decide)).1,
   (merge_sorted_stable [wEnt2] [wKag2] (fun _ => 0) (by decide) (by decide)).2 5 1⟩

-- ── C10: frame fields of matched primary records ──────────────────────────

/-- C10: when both sources are non-empty and a primary record has a
case-insensitive supplementary match, the merged record built from it
appears in the output and keeps the primary's name, emails, slug,
role_description, entity_type — and images when the primary's list is
non-empty — while only flights, documents, connections, in_black_book,
nationality and category are taken from the match (with max for the
counts). -/
theorem merge_frame_fields :
    ∀ (P : List Entity) (S : List KPerson) (cc : String → Int)
      (e : Entity) (k : KPerson),
      P ≠ [] → S ≠ [] → e ∈ P →
      kaggleLookup S (pyLower e.name) = some k →
      (Merged.ent (mergeOne cc S e) ∈ merge_persons P S cc ∧
       (mergeOne cc S e).name = e.name ∧
       (mergeOne cc S e).emails = e.emails ∧
       (mergeOne cc S e).slug = e.slug ∧
       (mergeOne cc S e).role_description = e.role_description ∧
       (mergeOne cc S e).entity_type = e.entity_type ∧
       (e.images ≠ [] → (mergeOne cc S e).images = e.images) ∧
       (mergeOne cc S e).flights = max e.flights k.flights ∧
       (mergeOne cc S e).documents = max e.documents k.documents ∧
       (mergeOne cc S e).connections = max (cc e.name) k.connections ∧
       (mergeOne cc S e).in_black_book = k.in_black_book ∧
       (mergeOne cc S e).nationality = k.nationality ∧
       (mergeOne cc S e).category = k.category) := by
  intro P S cc e k hPe hSe heP hk
  have hmem : Merged.ent (mergeOne cc S e) ∈ merge_persons P S cc := by
    simp only [merge_persons, if_neg hPe, if_neg hSe]
    rw [List.mem_insertionSort]
    unfold mergeCore
    exact List.mem_append_left _ (List.mem_map.mpr ⟨e, heP, rfl⟩)
  refine ⟨hmem, ?_, ?_, ?_, ?_, ?_, ?_, ?_, ?_, ?_, ?_, ?_, ?_⟩
  all_goals first
    | (simp [mergeOne, hk]; intro h1 h2; exact absurd h2 h1)
    | simp [mergeOne, hk]

/-- Witness for the C10 theorem at concrete one-row sources. -/
theorem merge_frame_fields_witness :
    Merged.ent (mergeOne (fun _ => 0) [wKag2] wEnt2) ∈
      merge_persons [wEnt2] [wKag2] (fun _ => 0) ∧
    (mergeOne (fun _ => 0) [wKag2] wEnt2).emails = wEnt2.emails ∧
    (mergeOne (fun _ => 0) [wKag2] wEnt2).nationality = wKag2.nationality := by
  have base := merge_frame_fields [wEnt2] [wKag2] (fun _ => 0) wEnt2 wKag2
    (by decide) (by decide) (by decide) (by decide)
  exact ⟨base.1, base.2.2.1, base.2.2.2.2.2.2.2.2.2.2.2.1⟩

-- ── C5: network size caps ─────────────────────────────────────────────────

theorem addNodeIfAbsent_stub (n g : String) (ns : List (String × NodeVal)) :
    ∃ t, addNodeIfAbsent n (NodeVal.stub g) ns = ns ++ t ∧
      ∀ kv ∈ t, ∃ g', kv.2 = NodeVal.stub g' := by
  unfold addNodeIfAbsent
  by_cases h : ns.any (fun kv => decide (kv.1 = n))
  · exact ⟨[], by simp [h]⟩
  · refine ⟨[(n, NodeVal.stub g)], by simp [h], ?_⟩
    intro kv hkv
    rcases List.mem_singleton.mp hkv with rfl
    exact ⟨g, rfl⟩

/-- Folding edge-endpoint stub insertions over any list only appends
stub-valued entries after the accumulator. -/
theorem fold_stub_ext {α : Type} (f g : α → String) (gr : String) :
    ∀ (l : List α) (acc : List (String × NodeVal)),
      ∃ t, l.foldl (fun ns x => addNodeIfAbsent (g x) (NodeVal.stub gr)
            (addNodeIfAbsent (f x) (NodeVal.stub gr) ns)) acc = acc ++ t ∧
        ∀ kv ∈ t, ∃ g', kv.2 = NodeVal.stub g' := by
  intro l
  induction l with
  | nil =>
    intro acc
    exact ⟨[], by simp, by simp⟩
  | cons x rest ih =>
    intro acc
    rcases addNodeIfAbsent_stub (f x) gr acc with ⟨t1, h1, hs1⟩
    rcases addNodeIfAbsent_stub (g x) gr (acc ++ t1) with ⟨t2, h2, hs2⟩
    rcases ih ((acc ++ t1) ++ t2) with ⟨t3, h3, hs3⟩
    refine ⟨t1 ++ t2 ++ t3, ?_, ?_⟩
    · simp only [List.foldl_cons, h1, h2, h3]
      simp [List.append_assoc]
    · intro kv hkv
      rcases List.mem_append.mp hkv with h | h
      · rcases List.mem_append.mp h with h' | h'
        · exact hs1 kv h'
        · exact hs2 kv h'
      · exact hs3 kv h

/-- With pairwise-distinct names and an accumulator avoiding them, the
base-person fold appends one node per person in order. -/
theorem foldPersons_eq :
    ∀ (ps : List Merged) (acc : List (String × NodeVal)),
      ((ps.map Merged.nameOf).Nodup) →
      (∀ p ∈ ps, acc.any (fun kv => decide (kv.1 = p.nameOf)) = false) →
      ps.foldl (fun ns p => addNodeIfAbsent p.nameOf (personNodeVal p) ns) acc =
        acc ++ ps.map (fun p => (p.nameOf, personNodeVal p)) := by
  intro ps
  induction ps with
  | nil =>
    intro acc _ _
    simp
  | cons p rest ih =>
    intro acc hnd hacc
    rw [List.map_cons] at hnd
    obtain ⟨hpnot, hnd'⟩ := List.nodup_cons.mp hnd
    simp only [List.foldl_cons]
    have hstep : addNodeIfAbsent p.nameOf (personNodeVal p) acc =
        acc ++ [(p.nameOf, personNodeVal p)] := by
      unfold addNodeIfAbsent
      rw [hacc p (List.mem_cons_self p rest)]
      simp
    rw [hstep]
    have hacc' : ∀ q ∈ rest, (acc ++ [(p.nameOf, personNodeVal p)]).any
        (fun kv => decide (kv.1 = q.nameOf)) = false := by
      intro q hq
      rw [List.any_append]
      have h1 := hacc q (List.mem_cons_of_mem p hq)
      have h2 : ¬ (p.nameOf = q.nameOf) := by
        intro hcontra
        exact hpnot (hcontra ▸ List.mem_map.mpr ⟨q, hq, rfl⟩)
      simp [h1, h2]
    rw [ih (acc ++ [(p.nameOf, personNodeVal p)]) hnd' hacc']
    simp

/-- Supplementary row of the C5 counterexample. -/
def dupNPerson : KPerson :=
  { name := "N", bio := "", flights := 0, documents := 0, connections := 0,
    in_black_book := false, nationality := "Unknown", category := "Unknown",
    images := [] }

set_option maxRecDepth 100000 in
/-- C5 counterexample: 301 persons that all share one name produce a
single base node, not 300 — the base node set has exactly 300 nodes only
when the first 300 persons carry distinct names. -/
theorem base_nodes_not_300_with_duplicates :
    300 < (List.replicate 301 (Merged.kag dupNPerson)).length ∧
    (build_network (List.replicate 301 (Merged.kag dupNPerson)) none none).nodes.length = 1 ∧
    (build_network (List.replicate 301 (Merged.kag dupNPerson)) none none).nodes.length ≠ 300 := by
  refine ⟨?_, ?_, ?_⟩
  · simp
  · decide
  · decide

/-- C5 (amended): for persons lists longer than 300 whose first 300
entries carry pairwise-distinct names, the node dictionary starts with
exactly 300 base nodes — one per person among the first 300, in order —
followed only by stub nodes introduced as edge endpoints; with
relationship data present the links are exactly the first 1000
relationship edges, and with relationship data absent at most 500
co-occurrence edges are emitted. -/
theorem network_caps :
    ∀ (persons : List Merged) (rels : Option (List Edge × List String))
      (fl : Option (List Flight)),
      300 < persons.length →
      ((persons.take 300).map Merged.nameOf).Nodup →
      ((∃ stubs, (build_network persons rels fl).nodes =
          (persons.take 300).map (fun p => (p.nameOf, personNodeVal p)) ++ stubs ∧
          ∀ kv ∈ stubs, ∃ g, kv.2 = NodeVal.stub g) ∧
       ((persons.take 300).map (fun p => (p.nameOf, personNodeVal p))).length = 300 ∧
       (∀ L nsl, rels = some (L, nsl) →
         (build_network persons rels fl).links = L.take 1000) ∧
       (rels = none → (build_network persons rels fl).links.length ≤ 500)) := by
  intro persons rels fl hlen hnd
  have hn0 : (persons.take 300).foldl
      (fun ns p => addNodeIfAbsent p.nameOf (personNodeVal p) ns) [] =
      (persons.take 300).map (fun p => (p.nameOf, personNodeVal p)) := by
    have := foldPersons_eq (persons.take 300) [] hnd (fun p _ => rfl)
    simpa using this
  have hlen300 : ((persons.take 300).map
      (fun p => (p.nameOf, personNodeVal p))).length = 300 := by
    rw [List.length_map, List.length_take]
    omega
  rcases rels with _ | ⟨L, nsl⟩
  · rcases fl with _ | fll
    · refine ⟨⟨[], ?_, by simp⟩, hlen300, ?_, ?_⟩
      · show (persons.take 300).foldl
            (fun ns p => addNodeIfAbsent p.nameOf (personNodeVal p) ns) [] = _
        rw [hn0]
        simp
      · intro L nsl h
        cases h
      · intro _
        show (List.length ([] : List Edge)) ≤ 500
        simp
    · by_cases hfe : fll = []
      · subst hfe
        refine ⟨⟨[], ?_, by simp⟩, hlen300, ?_, ?_⟩
        · show (build_network persons none (some [])).nodes = _
          have : (build_network persons none (some [])).nodes =
              (persons.take 300).foldl
                (fun ns p => addNodeIfAbsent p.nameOf (personNodeVal p) ns) [] := rfl
          rw [this, hn0]
          simp
        · intro L nsl h
          cases h
        · intro _
          show (build_network persons none (some [])).links.length ≤ 500
          have : (build_network persons none (some [])).links = [] := rfl
          rw [this]
          simp
      · rcases fold_stub_ext Prod.fst Prod.snd "Flight Passenger" (cooccPairs fll)
          ((persons.take 300).foldl
            (fun ns p => addNodeIfAbsent p.nameOf (personNodeVal p) ns) [])
          with ⟨t, ht, hs⟩
        refine ⟨⟨t, ?_, hs⟩, hlen300, ?_, ?_⟩
        · have hb : (build_network persons none (some fll)).nodes =
              (cooccPairs fll).foldl
                (fun ns pr => addNodeIfAbsent pr.2 (NodeVal.stub "Flight Passenger")
                  (addNodeIfAbsent pr.1 (NodeVal.stub "Flight Passenger") ns))
                ((persons.take 300).foldl
                  (fun ns p => addNodeIfAbsent p.nameOf (personNodeVal p) ns) []) := by
            show (build_network persons none (some fll)).nodes = _
            simp only [build_network]
            rw [if_pos hfe]
          rw [hb, ht, hn0]
        · intro L nsl h
          cases h
        · intro _
          have hb : (build_network persons none (some fll)).links =
              cooccEdges fll := by
            simp only [build_network]
            rw [if_pos hfe]
          rw [hb]
          unfold cooccEdges
          rw [List.length_map, List.length_take]
          omega
  · rcases fold_stub_ext Edge.source Edge.target "Relationship" (L.take 1000)
      ((persons.take 300).foldl
        (fun ns p => addNodeIfAbsent p.nameOf (personNodeVal p) ns) [])
      with ⟨t, ht, hs⟩
    refine ⟨⟨t, ?_, hs⟩, hlen300, ?_, ?_⟩
    · have hb : (build_network persons (some (L, nsl)) fl).nodes =
          (L.take 1000).foldl
            (fun ns l => addNodeIfAbsent l.target (NodeVal.stub "Relationship")
              (addNodeIfAbsent l.source (NodeVal.stub "Relationship") ns))
            ((persons.take 300).foldl
              (fun ns p => addNodeIfAbsent p.nameOf (personNodeVal p) ns) []) := rfl
      rw [hb, ht, hn0]
    · intro L' nsl' h
      cases h
      rfl
    · intro h
      cases h

/-- Name generator of the C5 witness: 301 pairwise-distinct names. -/
def wName (i : Nat) : String := String.mk (List.replicate i 'a')

/-- Persons list of the C5 witness: 301 rows with distinct names. -/
def wPersons : List Merged :=
  (List.range 301).map (fun i => Merged.kag { dupNPerson with name := wName i })

/-- Witness for the C5 theorem at a concrete 301-person list. -/
theorem network_caps_witness :
    ((wPersons.take 300).map (fun p => (p.nameOf, personNodeVal p))).length = 300 ∧
    (build_network wPersons none none).links.length ≤ 500 := by
  have hinj : Function.Injective wName := by
    intro i j h
    have := congrArg (fun s => s.data.length) h
    simpa [wName] using this
  have hlen : 300 < wPersons.length := by
    simp [wPersons]
  have hmapn : (wPersons.take 300).map Merged.nameOf = (List.range 300).map wName := by
    rw [wPersons, ← List.map_take, List.take_range, List.map_map]
    simp [Function.comp, Merged.nameOf]
  have hnd : ((wPersons.take 300).map Merged.nameOf).Nodup := by
    rw [hmapn]
    exact (List.nodup_range 300).map hinj
  exact ⟨(network_caps wPersons none none hlen hnd).2.1,
         (network_caps wPersons none none hlen hnd).2.2.2 rfl⟩
